import Mathlib

/-!
Shallow embedding of `src/seo_audit.py` (class `SEOAuditAutomation`).

The script drives a remote web UI through Selenium.  All effectful session
operations (navigation, waits, screenshots, element interaction) are modelled
by an environment record whose fields give the outcome of each operation:
`ExcOr.ok` for normal completion and `ExcOr.exc detail` for a raised Python
exception carrying `str(e) = detail`.  Locator-chain resolution loops are
modelled by a list of per-candidate `Probe` outcomes.  With the environment
fixed, every function of the script becomes a total Lean function, so
"returns without raising" is represented by totality and the interesting
content is which `Result` each path produces.
-/

namespace SeoAudit

/-- Outcome of one effectful Python operation: normal return or a raised
exception whose `str(e)` is `detail`. -/
inductive ExcOr (α : Type) where
  | ok (a : α)
  | exc (detail : String)
deriving DecidableEq, Repr

/-- Outcome of one candidate in a locator chain
(`WebDriverWait(...).until(...)` followed by `is_displayed()`):
either the wait times out (`TimeoutException`/`NoSuchElementException`,
caught by the loop), or an element `el` becomes present within the
per-candidate timeout with the given visibility, or some other exception is
raised (e.g. by `is_displayed()`), which the loop does not catch. -/
inductive Probe where
  | timeout
  | present (el : Nat) (visible : Bool)
  | err (detail : String)
deriving DecidableEq, Repr

/-- The selector loop of `process_url` (used for the URL input, the submit
button, the email input and the final submit button), lines 164-188, 199-228,
240-270, 281-309 of `src/seo_audit.py`:

    x = None
    for selector in selectors:
        try:
            x = WebDriverWait(self.driver, 3).until(...)
            if x.is_displayed():
                break
        except (TimeoutException, NoSuchElementException):
            continue

Note the loop variable is assigned before the `is_displayed()` check, so a
present-but-invisible candidate leaves the variable bound even when the loop
later falls through without a break.  `acc` models the current value of the
loop variable. -/
def resolveChain (acc : Option Nat) : List Probe → ExcOr (Option Nat)
  | [] => .ok acc
  | .timeout :: rest => resolveChain acc rest
  | .present e vis :: rest => if vis then .ok (some e) else resolveChain (some e) rest
  | .err d :: _ => .exc d

/-! ## Filename sanitization (`sanitize_filename`, lines 105-126)

`sanitize_filename` calls `urllib.parse.urlparse` and `slugify.slugify`.
Both libraries are modelled here as executable Lean functions on `List Char`:
`urlsplitL` implements the standard generic-URL split (scheme up to the first
`:` when the prefix is a valid scheme, network location after `//` up to the
first `/`, `?` or `#`, then fragment after the first `#` and query after the
first `?`), and `slugifyL` implements ASCII slugification (lowercase, keep
alphanumeric runs, join the runs with single hyphens). -/

/-- Split a character list at the first character satisfying `p`: returns the
part strictly before it and, when such a character exists, the part strictly
after it. -/
def splitFirst (p : Char → Bool) : List Char → List Char × Option (List Char)
  | [] => ([], none)
  | c :: cs =>
    if p c then ([], some cs)
    else
      let r := splitFirst p cs
      (c :: r.1, r.2)

/-- Characters allowed in a URL scheme. -/
def isSchemeChar (c : Char) : Bool :=
  c.isAlphanum || c = '+' || c = '-' || c = '.'

/-- A non-empty scheme beginning with a letter, all of whose characters are
scheme characters. -/
def validScheme : List Char → Bool
  | [] => false
  | c :: cs => c.isAlpha && (c :: cs).all isSchemeChar

/-- True when `c` is none of the three characters ending a network
location (`/`, `?`, `#`). -/
def notNetlocEnd (c : Char) : Bool :=
  !(c = '/' || c = '?' || c = '#')

/-- The components of a parsed URL used by the script. -/
structure UrlParts where
  scheme : List Char
  netloc : List Char
  path : List Char
  query : List Char
  fragment : List Char
deriving DecidableEq, Repr

/-- Model of `urllib.parse.urlparse` restricted to the components the script
reads (`netloc`, `path`), plus the remaining generic components.  Parameters
of the last path segment are kept inside `path`. -/
def urlsplitL (cs : List Char) : UrlParts :=
  let s := splitFirst (fun c => c = ':') cs
  let schemeRest : List Char × List Char :=
    match s.2 with
    | some rest => if validScheme s.1 then (s.1.map Char.toLower, rest) else ([], cs)
    | none => ([], cs)
  let netlocRest : List Char × List Char :=
    match schemeRest.2 with
    | '/' :: '/' :: r => (r.takeWhile notNetlocEnd, r.dropWhile notNetlocEnd)
    | other => ([], other)
  let f := splitFirst (fun c => c = '#') netlocRest.2
  let fragment := f.2.getD []
  let q := splitFirst (fun c => c = '?') f.1
  let query := q.2.getD []
  ⟨schemeRest.1, netlocRest.1, q.1, query, fragment⟩

/-- Model of `slugify.slugify` on ASCII input: lowercase, then keep the
maximal alphanumeric runs and join them with single hyphens (every run of
non-alphanumeric characters collapses to one separator, and separators at the
ends are stripped). -/
def slugifyL (cs : List Char) : List Char :=
  List.intercalate ['-']
    (((cs.map Char.toLower).splitOnP (fun c => !c.isAlphanum)).filter (fun w => w ≠ []))

/-- The body of `sanitize_filename` after parsing: `domain = parsed.netloc`,
`path = parsed.path.replace('/', '_')`, `filename = slugify(domain + path)`,
truncated to 100 characters when longer. -/
def sanitizeFrom (domain path : List Char) : List Char :=
  let pathU := path.map (fun c => if c = '/' then '_' else c)
  let filename := slugifyL (domain ++ pathU)
  if 100 < filename.length then filename.take 100 else filename

/-- The function `sanitize_filename` on character lists. -/
def sanitizeL (url : List Char) : List Char :=
  let parsed := urlsplitL url
  sanitizeFrom parsed.netloc parsed.path

/-- Model of `sanitize_filename` (lines 105-126): convert a URL to a safe filename. -/
def sanitize_filename (url : String) : String :=
  ⟨sanitizeL url.data⟩

/-! ## The per-item workflow (`process_url`, lines 128-368) -/

/-- The outcomes of every effectful operation performed by one invocation of
`process_url`, in program order.  The four locator chains give one `Probe`
outcome per candidate selector. -/
structure Env where
  navigate : ExcOr Unit
  waitBody1 : ExcOr Unit
  shotInitial : ExcOr Unit
  urlChain : List Probe
  clearUrl : ExcOr Unit
  typeUrl : ExcOr Unit
  shotUrlEntered : ExcOr Unit
  submitChain : List Probe
  clickSubmit : ExcOr Unit
  shotSubmitted : ExcOr Unit
  emailChain : List Probe
  clearEmail : ExcOr Unit
  typeEmail : ExcOr Unit
  shotEmailEntered : ExcOr Unit
  finalChain : List Probe
  clickFinal : ExcOr Unit
  shotFinalSubmitted : ExcOr Unit
  waitBody2 : ExcOr Unit
  popupStep : ExcOr Unit
  getHeight : ExcOr Int
  setWindowSize : ExcOr Unit
  shotFinal : ExcOr Unit
  timestamp : String
deriving DecidableEq, Repr

/-- The result dictionary built by `process_url` (lines 139-145). -/
structure Result where
  url : String
  status : String
  screenshot_path : Option String
  error : Option String
  timestamp : String
deriving DecidableEq, Repr

/-- Run one step under the outer `try` of `process_url`: a raised exception
reaches the handler at lines 365-368, which records
`"Unexpected error: " + str(e)` on the result. -/
def withExc {α : Type} (r0 : Result) (x : ExcOr α) (k : α → Result) : Result :=
  match x with
  | .ok a => k a
  | .exc d => { r0 with error := some ("Unexpected error: " ++ d) }

/-- Run one step under the inner `try` surrounding the email form
(lines 239-322): a raised exception reaches the handler at lines 319-322,
which records `"Failed to handle email form: " + str(e)` and returns. -/
def innerExc {α : Type} (r0 : Result) (x : ExcOr α) (k : α → Result) : Result :=
  match x with
  | .ok a => k a
  | .exc d => { r0 with error := some ("Failed to handle email form: " ++ d) }

/-- Model of `process_url` (lines 128-368): run the fixed interaction sequence for one
URL and always return a `Result` (totality of this function models the fact
that the whole body is wrapped in `try/except Exception`). -/
def process_url (env : Env) (url : String) (output_dir : String) : Result :=
  let r0 : Result :=
    { url := url, status := "failed", screenshot_path := none, error := none,
      timestamp := env.timestamp }
  withExc r0 env.navigate fun _ =>
  withExc r0 env.waitBody1 fun _ =>
  withExc r0 env.shotInitial fun _ =>
  withExc r0 (resolveChain none env.urlChain) fun url_input =>
  match url_input with
  | none => { r0 with error := some "Could not find URL input field" }
  | some _ =>
    withExc r0 env.clearUrl fun _ =>
    withExc r0 env.typeUrl fun _ =>
    withExc r0 env.shotUrlEntered fun _ =>
    withExc r0 (resolveChain none env.submitChain) fun submit_button =>
    match submit_button with
    | none => { r0 with error := some "Could not find submit button" }
    | some _ =>
      withExc r0 env.clickSubmit fun _ =>
      withExc r0 env.shotSubmitted fun _ =>
      innerExc r0 (resolveChain none env.emailChain) fun email_input =>
      match email_input with
      | none => { r0 with error := some "Could not find email input field" }
      | some _ =>
        innerExc r0 env.clearEmail fun _ =>
        innerExc r0 env.typeEmail fun _ =>
        innerExc r0 env.shotEmailEntered fun _ =>
        innerExc r0 (resolveChain none env.finalChain) fun final_submit =>
        match final_submit with
        | none => { r0 with error := some "Could not find final submit button" }
        | some _ =>
          innerExc r0 env.clickFinal fun _ =>
          innerExc r0 env.shotFinalSubmitted fun _ =>
          withExc r0 env.waitBody2 fun _ =>
          withExc r0 env.popupStep fun _ =>
          withExc r0 env.getHeight fun _height =>
          withExc r0 env.setWindowSize fun _ =>
          withExc r0 env.shotFinal fun _ =>
          { r0 with
              status := "success",
              screenshot_path :=
                some (output_dir ++ "/" ++ sanitize_filename url ++ ".png") }

/-! ## The batch orchestrator (`process_csv`, lines 370-440, and `cleanup`,
lines 98-103) -/

/-- The WebDriver handle (`self.driver`) together with a count of calls to
`driver.quit()`. -/
structure DriverSt where
  driver : Option Unit
  quitCalls : Nat
deriving DecidableEq, Repr

/-- Model of `cleanup` (lines 98-103): if a driver handle is set, quit it and clear the
handle; otherwise do nothing. -/
def cleanup (st : DriverSt) : DriverSt :=
  match st.driver with
  | some _ => { driver := none, quitCalls := st.quitCalls + 1 }
  | none => st

/-- Outcome of `setup_driver` (lines 73-96): success; failure before
`self.driver` is assigned (the `webdriver.Chrome` constructor raises); or
failure after assignment (`set_page_load_timeout` raises).  In either failure
case the exception is re-raised. -/
inductive SetupOut where
  | ok
  | failEarly (detail : String)
  | failLate (detail : String)
deriving DecidableEq, Repr

/-- Effect outcomes for one invocation of `process_csv`: the tabular read, the
driver setup, one workflow environment per item index, an optional interrupt
(`KeyboardInterrupt`, not caught by any `except Exception`) raised either in
the middle of item `i` (second component `true`) or during the pacing sleep
after item `i` (second component `false`), and the manifest write. -/
structure BatchEnv where
  readCsv : ExcOr (List String)
  setupDriver : SetupOut
  itemEnv : Nat → Env
  interrupt : Option (Nat × Bool)
  writeManifest : ExcOr Unit

/-- How `process_csv` exits: a normal return of the two URL lists, an
exception re-raised by the `except` clause at lines 436-438, or a propagating
`KeyboardInterrupt`. -/
inductive BatchOutcome where
  | completed (successful failed : List String)
  | raised (detail : String)
  | interrupted
deriving DecidableEq, Repr

/-- The observable state of one `process_csv` invocation when it exits: the
outcome, the accumulated `results` list, whether `results.csv` was written,
whether `setup_driver` assigned a driver handle, and the driver state after
the `finally` clause ran. -/
structure BatchRec where
  outcome : BatchOutcome
  results : List Result
  manifestWritten : Bool
  driverAssigned : Bool
  finalDriver : DriverSt
deriving Repr

/-- Result of the per-item loop: either it finished, with the accumulated
results and the success/failure classification, or a `KeyboardInterrupt`
aborted it, with the results accumulated so far. -/
inductive LoopOut where
  | finished (results : List Result) (successful failed : List String)
  | interrupted (results : List Result)
deriving Repr

/-- The per-item loop of `process_csv` (lines 411-421): for each URL in input
order, run `process_url`, append its result, classify the URL by status, then
sleep two seconds.  A mid-item interrupt loses that item's result; an
interrupt during the sleep happens after the result was recorded. -/
def runLoop (benv : BatchEnv) (outDir : String) : List String → Nat → LoopOut
  | [], _ => .finished [] [] []
  | u :: rest, i =>
    if benv.interrupt = some (i, true) then .interrupted []
    else
      let r := process_url (benv.itemEnv i) u (outDir ++ "/screenshots")
      if benv.interrupt = some (i, false) then .interrupted [r]
      else
        match runLoop benv outDir rest (i + 1) with
        | .interrupted rs => .interrupted (r :: rs)
        | .finished rs s f =>
          if r.status = "success" then .finished (r :: rs) (u :: s) f
          else .finished (r :: rs) s (u :: f)

/-- Model of `process_csv` (lines 370-440): read the URLs, return two empty lists when
there are none, otherwise set up the driver, run the loop, write the manifest
and return the two lists; every exit path runs `cleanup` via the `finally`
clause. -/
def process_csv (benv : BatchEnv) (outDir : String) : BatchRec :=
  let st0 : DriverSt := ⟨none, 0⟩
  match benv.readCsv with
  | .exc d => ⟨.raised d, [], false, false, cleanup st0⟩
  | .ok urls =>
    if urls.isEmpty then ⟨.completed [] [], [], false, false, cleanup st0⟩
    else
      match benv.setupDriver with
      | .failEarly d => ⟨.raised d, [], false, false, cleanup st0⟩
      | .failLate d => ⟨.raised d, [], false, true, cleanup ⟨some (), 0⟩⟩
      | .ok =>
        let st1 : DriverSt := ⟨some (), 0⟩
        match runLoop benv outDir urls 0 with
        | .interrupted rs => ⟨.interrupted, rs, false, true, cleanup st1⟩
        | .finished rs s f =>
          match benv.writeManifest with
          | .exc d => ⟨.raised d, rs, false, true, cleanup st1⟩
          | .ok _ => ⟨.completed s f, rs, true, true, cleanup st1⟩

/-! ## The artifact packager (`create_zip`, lines 442-472) -/

/-- A directory entry: a file, or a subdirectory with its own entries. -/
inductive Entry where
  | file (name : String)
  | dir (name : String) (children : List Entry)

/-- The file paths visited by `os.walk` starting from the directory whose
path components are `root` and whose entries are given (each path is returned
as its component list `root ++ [...subdirs, filename]`).  Files of a
directory level are emitted as they appear among its entries; the claims
verified below are insensitive to the order. -/
def walkList (root : List String) : List Entry → List (List String)
  | [] => []
  | .file n :: rest => (root ++ [n]) :: walkList root rest
  | .dir n cs :: rest => walkList (root ++ [n]) cs ++ walkList root rest

/-- Model of `os.path.relpath(fp, base)` in the case used by `create_zip`, where `fp`
lies below `base`: drop the leading `base` components. -/
def relpathFrom (base fp : List String) : List String :=
  fp.drop base.length

/-- Model of `create_zip` (lines 442-472): walk the output directory and write every
file into the archive under its path relative to the output directory's
parent.  The archive is modelled as the list of (file path, archive name)
pairs in write order. -/
def create_zip (outputPath : List String) (tree : List Entry) :
    List (List String × List String) :=
  (walkList outputPath tree).map
    (fun fp => (fp, relpathFrom outputPath.dropLast fp))

/-- The name of a directory entry. -/
def entryName : Entry → String
  | .file n => n
  | .dir n _ => n

/-- Well-formedness of a directory tree: within each directory the entry
names are distinct, as on a real filesystem. -/
def WfList : List Entry → Prop
  | [] => True
  | .file n :: rest => (∀ e ∈ rest, entryName e ≠ n) ∧ WfList rest
  | .dir n cs :: rest => (∀ e ∈ rest, entryName e ≠ n) ∧ WfList cs ∧ WfList rest

/-! ## Auxiliary predicates and concrete environments -/

/-- A probe that satisfies the spec's notion of a match: the candidate yields
an element that is present and visible within the per-candidate timeout. -/
def visibleProbe : Probe → Bool
  | .present _ true => true
  | _ => false

/-- A probe on which the selector loop moves to the next candidate without
breaking and without raising. -/
def continuesProbe : Probe → Bool
  | .timeout => true
  | .present _ vis => !vis
  | .err _ => false

/-- A probe that raises an exception the selector loop does not catch. -/
def isErrProbe : Probe → Bool
  | .err _ => true
  | _ => false

/-- The test `leadsChars n h` holds when `n` is an initial segment of `h`. -/
def leadsChars : List Char → List Char → Bool
  | [], _ => true
  | _ :: _, [] => false
  | a :: as, b :: bs => a = b && leadsChars as bs

/-- The test `containsChars n h` holds when `n` occurs contiguously inside `h`. -/
def containsChars (needle : List Char) : List Char → Bool
  | [] => leadsChars needle []
  | b :: bs => leadsChars needle (b :: bs) || containsChars needle bs

/-- An environment in which every operation succeeds and each locator chain
finds a visible element. -/
def envAllOk : Env :=
  { navigate := .ok (), waitBody1 := .ok (), shotInitial := .ok (),
    urlChain := [.timeout, .present 1 true],
    clearUrl := .ok (), typeUrl := .ok (), shotUrlEntered := .ok (),
    submitChain := [.present 2 true],
    clickSubmit := .ok (), shotSubmitted := .ok (),
    emailChain := [.present 3 true],
    clearEmail := .ok (), typeEmail := .ok (), shotEmailEntered := .ok (),
    finalChain := [.present 4 true],
    clickFinal := .ok (), shotFinalSubmitted := .ok (),
    waitBody2 := .ok (), popupStep := .ok (),
    getHeight := .ok 2000, setWindowSize := .ok (), shotFinal := .ok (),
    timestamp := "2026-01-01 00:00:00" }

/-- Like `envAllOk` except that `email_input.clear()` raises a stale-element
exception inside the email-form block. -/
def envEmailStale : Env :=
  { envAllOk with clearEmail := .exc "stale element reference" }

/-- Like `envAllOk` except that no candidate of the URL-input chain matches. -/
def envUrlNotFound : Env :=
  { envAllOk with urlChain := [.timeout] }

/-! ## Resolver lemmas -/

lemma resolveChain_append_firstVisible (pre rest : List Probe) (e : Nat)
    (h : ∀ p ∈ pre, continuesProbe p = true) (acc : Option Nat) :
    resolveChain acc (pre ++ Probe.present e true :: rest) = .ok (some e) := by
  induction pre generalizing acc with
  | nil => simp [resolveChain]
  | cons p ps ih =>
    have hp := h p (by simp)
    have hps : ∀ q ∈ ps, continuesProbe q = true := fun q hq => h q (by simp [hq])
    cases p with
    | timeout => simpa [resolveChain] using ih hps acc
    | present x vis =>
      cases vis with
      | false => simpa [resolveChain] using ih hps (some x)
      | true => simp [continuesProbe] at hp
    | err d => simp [continuesProbe] at hp

lemma resolveChain_some_ne_none (rest : List Probe) (x : Nat) :
    resolveChain (some x) rest ≠ .ok none := by
  induction rest generalizing x with
  | nil => simp [resolveChain]
  | cons p ps ih =>
    cases p with
    | timeout => simpa [resolveChain] using ih x
    | present y vis =>
      cases vis with
      | true => simp [resolveChain]
      | false => simpa [resolveChain] using ih y
    | err d => simp [resolveChain]

lemma resolveChain_all_timeout (post : List Probe)
    (h : ∀ p ∈ post, p = Probe.timeout) (acc : Option Nat) :
    resolveChain acc post = .ok acc := by
  induction post with
  | nil => rfl
  | cons p ps ih =>
    have hp := h p (by simp)
    subst hp
    exact ih (fun q hq => h q (by simp [hq]))

lemma resolveChain_last_present (pre post : List Probe) (e : Nat)
    (h1 : ∀ p ∈ pre, continuesProbe p = true)
    (h2 : ∀ p ∈ post, p = Probe.timeout) (acc : Option Nat) :
    resolveChain acc (pre ++ Probe.present e false :: post) = .ok (some e) := by
  induction pre generalizing acc with
  | nil =>
    show resolveChain acc (Probe.present e false :: post) = .ok (some e)
    rw [resolveChain]
    exact resolveChain_all_timeout post h2 (some e)
  | cons p ps ih =>
    have hp := h1 p (by simp)
    have hps : ∀ q ∈ ps, continuesProbe q = true := fun q hq => h1 q (by simp [hq])
    cases p with
    | timeout => simpa [resolveChain] using ih hps acc
    | present x vis =>
      cases vis with
      | false => simpa [resolveChain] using ih hps (some x)
      | true => simp [continuesProbe] at hp
    | err d => simp [continuesProbe] at hp

lemma resolveChain_none_iff (chain : List Probe) :
    resolveChain none chain = .ok none ↔ ∀ p ∈ chain, p = Probe.timeout := by
  induction chain with
  | nil => simp [resolveChain]
  | cons p ps ih =>
    cases p with
    | timeout => simp [resolveChain, ih]
    | present x vis =>
      cases vis with
      | true => simp [resolveChain]
      | false => simp [resolveChain, resolveChain_some_ne_none]
    | err d => simp [resolveChain]

/-! ## Reachability of the workflow steps

Cumulative conditions expressing that `process_url` reaches a given step:
every effectful operation before it completed normally and every earlier
locator chain found an element. -/

/-- The workflow reaches the URL-input locator chain. -/
def ReachUrlChain (env : Env) : Prop :=
  env.navigate = .ok () ∧ env.waitBody1 = .ok () ∧ env.shotInitial = .ok ()

/-- The workflow reaches the submit-button locator chain. -/
def ReachSubmitChain (env : Env) : Prop :=
  ReachUrlChain env ∧ (∃ e, resolveChain none env.urlChain = .ok (some e)) ∧
  env.clearUrl = .ok () ∧ env.typeUrl = .ok () ∧ env.shotUrlEntered = .ok ()

/-- The workflow reaches the email-input locator chain. -/
def ReachEmailChain (env : Env) : Prop :=
  ReachSubmitChain env ∧ (∃ e, resolveChain none env.submitChain = .ok (some e)) ∧
  env.clickSubmit = .ok () ∧ env.shotSubmitted = .ok ()

/-- The workflow reaches the final-submit locator chain. -/
def ReachFinalChain (env : Env) : Prop :=
  ReachEmailChain env ∧ (∃ e, resolveChain none env.emailChain = .ok (some e)) ∧
  env.clearEmail = .ok () ∧ env.typeEmail = .ok () ∧ env.shotEmailEntered = .ok ()

/-- The workflow completes the email-form block. -/
def ReachPostSubmit (env : Env) : Prop :=
  ReachFinalChain env ∧ (∃ e, resolveChain none env.finalChain = .ok (some e)) ∧
  env.clickFinal = .ok () ∧ env.shotFinalSubmitted = .ok ()

/-- The error message recorded when the `k`-th mandatory locator step finds
nothing (lines 187, 227, 269, 308). -/
def stepMsg (k : Fin 4) : String :=
  match k.val with
  | 0 => "Could not find URL input field"
  | 1 => "Could not find submit button"
  | 2 => "Could not find email input field"
  | _ => "Could not find final submit button"

/-- The workflow reaches the `k`-th mandatory locator step and that step's
chain falls through without any candidate matching. -/
def ResolutionFailAt (env : Env) (k : Fin 4) : Prop :=
  match k.val with
  | 0 => ReachUrlChain env ∧ resolveChain none env.urlChain = .ok none
  | 1 => ReachSubmitChain env ∧ resolveChain none env.submitChain = .ok none
  | 2 => ReachEmailChain env ∧ resolveChain none env.emailChain = .ok none
  | _ => ReachFinalChain env ∧ resolveChain none env.finalChain = .ok none

/-! ## The success/failure shape of every `process_url` result -/

/-- The invariant of claim C4 for a single result value. -/
def ResOk (r : Result) : Prop :=
  (r.status = "success" → r.screenshot_path ≠ none) ∧
  (r.status = "failed" → r.error ≠ none)

lemma resOk_of_fail (r : Result) (h : r.status = "failed") (h2 : r.error ≠ none) :
    ResOk r := by
  refine ⟨fun hs => ?_, fun _ => h2⟩
  rw [h] at hs
  exact absurd hs (by decide)

lemma resOk_withExc {α : Type} (r0 : Result) (x : ExcOr α) (k : α → Result)
    (h0 : r0.status = "failed") (hk : ∀ a, ResOk (k a)) :
    ResOk (withExc r0 x k) := by
  cases x with
  | ok a => exact hk a
  | exc d => exact resOk_of_fail _ h0 (by simp [withExc])

lemma resOk_innerExc {α : Type} (r0 : Result) (x : ExcOr α) (k : α → Result)
    (h0 : r0.status = "failed") (hk : ∀ a, ResOk (k a)) :
    ResOk (innerExc r0 x k) := by
  cases x with
  | ok a => exact hk a
  | exc d => exact resOk_of_fail _ h0 (by simp [innerExc])

lemma resOk_process_url (env : Env) (url output_dir : String) :
    ResOk (process_url env url output_dir) := by
  unfold process_url
  dsimp only
  apply resOk_withExc _ _ _ rfl; intro _
  apply resOk_withExc _ _ _ rfl; intro _
  apply resOk_withExc _ _ _ rfl; intro _
  apply resOk_withExc _ _ _ rfl; intro ui
  cases ui with
  | none => exact resOk_of_fail _ rfl (by simp)
  | some _ =>
    apply resOk_withExc _ _ _ rfl; intro _
    apply resOk_withExc _ _ _ rfl; intro _
    apply resOk_withExc _ _ _ rfl; intro _
    apply resOk_withExc _ _ _ rfl; intro sb
    cases sb with
    | none => exact resOk_of_fail _ rfl (by simp)
    | some _ =>
      apply resOk_withExc _ _ _ rfl; intro _
      apply resOk_withExc _ _ _ rfl; intro _
      apply resOk_innerExc _ _ _ rfl; intro em
      cases em with
      | none => exact resOk_of_fail _ rfl (by simp)
      | some _ =>
        apply resOk_innerExc _ _ _ rfl; intro _
        apply resOk_innerExc _ _ _ rfl; intro _
        apply resOk_innerExc _ _ _ rfl; intro _
        apply resOk_innerExc _ _ _ rfl; intro fs
        cases fs with
        | none => exact resOk_of_fail _ rfl (by simp)
        | some _ =>
          apply resOk_innerExc _ _ _ rfl; intro _
          apply resOk_innerExc _ _ _ rfl; intro _
          apply resOk_withExc _ _ _ rfl; intro _
          apply resOk_withExc _ _ _ rfl; intro _
          apply resOk_withExc _ _ _ rfl; intro _
          apply resOk_withExc _ _ _ rfl; intro _
          apply resOk_withExc _ _ _ rfl; intro _
          exact ⟨fun _ => by simp, fun h => by simp at h⟩

/-! ## The URL recorded on every `process_url` result -/

lemma url_withExc {α : Type} (r0 : Result) (x : ExcOr α) (k : α → Result)
    (u : String) (h0 : r0.url = u) (hk : ∀ a, (k a).url = u) :
    (withExc r0 x k).url = u := by
  cases x with
  | ok a => exact hk a
  | exc d => exact h0

lemma url_innerExc {α : Type} (r0 : Result) (x : ExcOr α) (k : α → Result)
    (u : String) (h0 : r0.url = u) (hk : ∀ a, (k a).url = u) :
    (innerExc r0 x k).url = u := by
  cases x with
  | ok a => exact hk a
  | exc d => exact h0

lemma process_url_url (env : Env) (url output_dir : String) :
    (process_url env url output_dir).url = url := by
  unfold process_url
  dsimp only
  apply url_withExc _ _ _ _ rfl; intro _
  apply url_withExc _ _ _ _ rfl; intro _
  apply url_withExc _ _ _ _ rfl; intro _
  apply url_withExc _ _ _ _ rfl; intro ui
  cases ui with
  | none => rfl
  | some _ =>
    apply url_withExc _ _ _ _ rfl; intro _
    apply url_withExc _ _ _ _ rfl; intro _
    apply url_withExc _ _ _ _ rfl; intro _
    apply url_withExc _ _ _ _ rfl; intro sb
    cases sb with
    | none => rfl
    | some _ =>
      apply url_withExc _ _ _ _ rfl; intro _
      apply url_withExc _ _ _ _ rfl; intro _
      apply url_innerExc _ _ _ _ rfl; intro em
      cases em with
      | none => rfl
      | some _ =>
        apply url_innerExc _ _ _ _ rfl; intro _
        apply url_innerExc _ _ _ _ rfl; intro _
        apply url_innerExc _ _ _ _ rfl; intro _
        apply url_innerExc _ _ _ _ rfl; intro fs
        cases fs with
        | none => rfl
        | some _ =>
          apply url_innerExc _ _ _ _ rfl; intro _
          apply url_innerExc _ _ _ _ rfl; intro _
          apply url_withExc _ _ _ _ rfl; intro _
          apply url_withExc _ _ _ _ rfl; intro _
          apply url_withExc _ _ _ _ rfl; intro _
          apply url_withExc _ _ _ _ rfl; intro _
          apply url_withExc _ _ _ _ rfl; intro _
          rfl

/-! ## The batch loop without interrupts -/

lemma runLoop_no_interrupt (benv : BatchEnv) (outDir : String)
    (hni : benv.interrupt = none) (urls : List String) :
    ∀ i : Nat, ∃ rs s f,
      runLoop benv outDir urls i = .finished rs s f
      ∧ rs.length = urls.length
      ∧ rs.map Result.url = urls
      ∧ s.length + f.length = urls.length := by
  induction urls with
  | nil => exact fun i => ⟨[], [], [], rfl, rfl, rfl, rfl⟩
  | cons u rest ih =>
    intro i
    obtain ⟨rs, sl, fl, hrun, hlen, hmap, hsf⟩ := ih (i + 1)
    by_cases hst :
      (process_url (benv.itemEnv i) u (outDir ++ "/screenshots")).status = "success"
    · refine ⟨process_url (benv.itemEnv i) u (outDir ++ "/screenshots") :: rs,
        u :: sl, fl, ?_, by simp [hlen], by simp [hmap, process_url_url], by simp; omega⟩
      simp [runLoop, hni, hrun, hst]
    · refine ⟨process_url (benv.itemEnv i) u (outDir ++ "/screenshots") :: rs,
        sl, u :: fl, ?_, by simp [hlen], by simp [hmap, process_url_url], by simp; omega⟩
      simp [runLoop, hni, hrun, hst]

/-- A batch environment for concrete runs: two items, everything succeeds. -/
def benvOk : BatchEnv :=
  { readCsv := .ok ["https://example.com", "https://example.org"],
    setupDriver := .ok,
    itemEnv := fun _ => envAllOk,
    interrupt := none,
    writeManifest := .ok () }

/-- Like `benvOk` but interrupted in the middle of the second item. -/
def benvInterrupted : BatchEnv :=
  { benvOk with interrupt := some (1, true) }

/-- Like `benvOk` but with an empty input list. -/
def benvEmpty : BatchEnv :=
  { benvOk with readCsv := .ok [] }

/-! ## URL component lemmas -/

/-- The optional query and fragment tail of a URL. -/
def optQF (q f : Option (List Char)) : List Char :=
  (match q with
   | none => []
   | some qs => '?' :: qs) ++
  (match f with
   | none => []
   | some fs => '#' :: fs)

/-- A URL assembled from a scheme, a host-and-path section and optional query
and fragment components. -/
def buildUrl (scheme hp : List Char) (q f : Option (List Char)) : List Char :=
  scheme ++ ':' :: '/' :: '/' :: (hp ++ optQF q f)

lemma splitFirst_append_of_not (p : Char → Bool) (xs : List Char) (c : Char)
    (ys : List Char) (h : ∀ a ∈ xs, p a = false) (hc : p c = true) :
    splitFirst p (xs ++ c :: ys) = (xs, some ys) := by
  induction xs with
  | nil => simp [splitFirst, hc]
  | cons a as ih =>
    have ha := h a (by simp)
    have has : ∀ b ∈ as, p b = false := fun b hb => h b (by simp [hb])
    simp [splitFirst, ha, ih has]

lemma splitFirst_of_none (p : Char → Bool) (xs : List Char)
    (h : ∀ a ∈ xs, p a = false) :
    splitFirst p xs = (xs, none) := by
  induction xs with
  | nil => rfl
  | cons a as ih =>
    have ha := h a (by simp)
    have has : ∀ b ∈ as, p b = false := fun b hb => h b (by simp [hb])
    simp [splitFirst, ha, ih has]

lemma takeWhile_append_stop (q : Char → Bool) (xs t : List Char)
    (h : t.takeWhile q = []) : (xs ++ t).takeWhile q = xs.takeWhile q := by
  induction xs with
  | nil => simpa using h
  | cons a as ih =>
    by_cases hq : q a <;> simp [List.takeWhile_cons, hq, ih]

lemma dropWhile_append_stop (q : Char → Bool) (xs t : List Char)
    (h : t.takeWhile q = []) : (xs ++ t).dropWhile q = xs.dropWhile q ++ t := by
  induction xs with
  | nil =>
    simp only [List.nil_append, List.dropWhile_nil]
    cases t with
    | nil => rfl
    | cons b bs =>
      have hb : q b = false := by
        by_cases hb : q b
        · simp [List.takeWhile_cons, hb] at h
        · exact eq_false_of_ne_true hb
      simp [List.dropWhile_cons, hb]
  | cons a as ih =>
    by_cases hq : q a <;> simp [List.dropWhile_cons, hq, ih]

lemma optQF_takeWhile (q f : Option (List Char)) :
    (optQF q f).takeWhile notNetlocEnd = [] := by
  cases q <;> cases f <;> simp [optQF, List.takeWhile_cons, notNetlocEnd]

lemma mem_dropWhile (q : Char → Bool) (l : List Char) (c : Char)
    (h : c ∈ l.dropWhile q) : c ∈ l := by
  induction l with
  | nil => simp at h
  | cons a as ih =>
    by_cases hq : q a
    · rw [List.dropWhile_cons, if_pos hq] at h
      exact List.mem_cons_of_mem _ (ih h)
    · rw [List.dropWhile_cons, if_neg hq] at h
      exact h

lemma validScheme_all (scheme : List Char) (hs : validScheme scheme = true) :
    ∀ c ∈ scheme, isSchemeChar c = true := by
  cases scheme with
  | nil => simp [validScheme] at hs
  | cons c cs =>
    rw [validScheme] at hs
    have := (Bool.and_eq_true _ _).mp hs
    exact fun a ha => (List.all_eq_true.mp this.2) a ha

lemma isSchemeChar_ne_colon (a : Char) (h : isSchemeChar a = true) :
    (decide (a = ':')) = false := by
  by_cases hc : a = ':'
  · subst hc
    exact absurd h (by decide)
  · simp [hc]

lemma path_of_tail (hpT : List Char) (q f : Option (List Char))
    (hT : ∀ c ∈ hpT, c ≠ '?' ∧ c ≠ '#')
    (hq : ∀ qs, q = some qs → ∀ c ∈ qs, c ≠ '#') :
    (splitFirst (fun c => c = '?')
      (splitFirst (fun c => c = '#') (hpT ++ optQF q f)).1).1 = hpT := by
  have hT1 : ∀ a ∈ hpT, (fun c : Char => decide (c = '#')) a = false :=
    fun a ha => by simp [(hT a ha).2]
  have hT2 : ∀ a ∈ hpT, (fun c : Char => decide (c = '?')) a = false :=
    fun a ha => by simp [(hT a ha).1]
  cases q with
  | none =>
    cases f with
    | none =>
      rw [show optQF none none = ([] : List Char) by simp [optQF], List.append_nil]
      rw [splitFirst_of_none _ _ hT1]
      exact congrArg Prod.fst (splitFirst_of_none _ _ hT2)
    | some fs =>
      rw [show optQF none (some fs) = '#' :: fs by simp [optQF]]
      rw [splitFirst_append_of_not _ _ _ _ hT1 (by decide)]
      exact congrArg Prod.fst (splitFirst_of_none _ _ hT2)
  | some qs =>
    have hqs := hq qs rfl
    have hq1 : ∀ a ∈ hpT ++ '?' :: qs, (fun c : Char => decide (c = '#')) a = false := by
      intro a ha
      rcases List.mem_append.mp ha with h1 | h1
      · exact hT1 a h1
      · rcases List.mem_cons.mp h1 with rfl | h2
        · decide
        · simp [hqs a h2]
    cases f with
    | none =>
      rw [show optQF (some qs) none = '?' :: qs by simp [optQF]]
      rw [splitFirst_of_none _ _ hq1]
      exact congrArg Prod.fst (splitFirst_append_of_not _ _ _ _ hT2 (by decide))
    | some fs =>
      rw [show optQF (some qs) (some fs) = ('?' :: qs) ++ '#' :: fs by simp [optQF]]
      rw [← List.append_assoc]
      rw [splitFirst_append_of_not _ _ _ _ hq1 (by decide)]
      exact congrArg Prod.fst (splitFirst_append_of_not _ _ _ _ hT2 (by decide))

lemma urlsplit_buildUrl (scheme hp : List Char) (q f : Option (List Char))
    (hs : validScheme scheme = true)
    (hhp : ∀ c ∈ hp, c ≠ '?' ∧ c ≠ '#')
    (hq : ∀ qs, q = some qs → ∀ c ∈ qs, c ≠ '#') :
    (urlsplitL (buildUrl scheme hp q f)).netloc = hp.takeWhile notNetlocEnd
    ∧ (urlsplitL (buildUrl scheme hp q f)).path = hp.dropWhile notNetlocEnd := by
  have hnc : ∀ a ∈ scheme, (fun c : Char => decide (c = ':')) a = false :=
    fun a ha => isSchemeChar_ne_colon a (validScheme_all scheme hs a ha)
  have e1 : splitFirst (fun c => c = ':') (buildUrl scheme hp q f)
      = (scheme, some ('/' :: '/' :: (hp ++ optQF q f))) := by
    unfold buildUrl
    exact splitFirst_append_of_not _ _ _ _ hnc (by decide)
  have htq := optQF_takeWhile q f
  have e2 : (hp ++ optQF q f).takeWhile notNetlocEnd = hp.takeWhile notNetlocEnd :=
    takeWhile_append_stop _ _ _ htq
  have e3 : (hp ++ optQF q f).dropWhile notNetlocEnd
      = hp.dropWhile notNetlocEnd ++ optQF q f :=
    dropWhile_append_stop _ _ _ htq
  have hhpT : ∀ c ∈ hp.dropWhile notNetlocEnd, c ≠ '?' ∧ c ≠ '#' :=
    fun c hc => hhp c (mem_dropWhile _ _ _ hc)
  have e4 := path_of_tail (hp.dropWhile notNetlocEnd) q f hhpT hq
  unfold urlsplitL
  rw [e1]
  dsimp only
  rw [hs]
  rw [if_pos (rfl : (true : Bool) = true)]
  dsimp only
  constructor
  · exact e2
  · show (splitFirst (fun c => c = '?')
        (splitFirst (fun c => c = '#')
          (List.dropWhile notNetlocEnd (hp ++ optQF q f))).1).1
      = List.dropWhile notNetlocEnd hp
    rw [e3]
    exact e4

/-! ## Claim theorems -/

/-- C1: for every non-empty input list of N items, a batch run that finishes
normally (session acquired, no interrupt, manifest written) accumulates
exactly N results — one per input item in order, none skipped or duplicated —
and returns a successful list and a failed list whose lengths sum to N. -/
theorem C1_batch_counts (benv : BatchEnv) (outDir : String) (urls : List String)
    (h1 : benv.readCsv = .ok urls) (h2 : urls ≠ [])
    (h3 : benv.setupDriver = .ok) (h4 : benv.interrupt = none)
    (h5 : benv.writeManifest = .ok ()) :
    ∃ s f, (process_csv benv outDir).outcome = .completed s f
      ∧ (process_csv benv outDir).results.length = urls.length
      ∧ (process_csv benv outDir).results.map Result.url = urls
      ∧ s.length + f.length = urls.length := by
  obtain ⟨rs, sl, fl, hrun, hlen, hmap, hsf⟩ :=
    runLoop_no_interrupt benv outDir h4 urls 0
  have h2e : urls.isEmpty = false := by
    cases urls with
    | nil => exact absurd rfl h2
    | cons a l => rfl
  refine ⟨sl, fl, ?_, ?_, ?_, hsf⟩ <;>
    simp [process_csv, h1, h2e, h3, hrun, h5, hlen, hmap]

/-- C1, witness: a concrete two-item run completes with two results. -/
theorem C1_batch_counts_witness :
    ∃ s f, (process_csv benvOk "out").outcome = .completed s f
      ∧ (process_csv benvOk "out").results.length =
          (["https://example.com", "https://example.org"] : List String).length
      ∧ (process_csv benvOk "out").results.map Result.url =
          ["https://example.com", "https://example.org"]
      ∧ s.length + f.length =
          (["https://example.com", "https://example.org"] : List String).length :=
  C1_batch_counts benvOk "out" ["https://example.com", "https://example.org"]
    rfl (by decide) rfl rfl rfl

/-- C6: on every exit path of `process_csv` — normal completion, a re-raised
exception, or an interrupt mid-run — the `finally` clause has run `cleanup`:
the driver handle is cleared, the driver was quit exactly once whenever it had
been assigned, and an interrupted run leaves the manifest unwritten. -/
theorem C6_session_released (benv : BatchEnv) (outDir : String) :
    (process_csv benv outDir).finalDriver.driver = none
    ∧ ((process_csv benv outDir).driverAssigned = true →
        (process_csv benv outDir).finalDriver.quitCalls = 1)
    ∧ ((process_csv benv outDir).outcome = .interrupted →
        (process_csv benv outDir).manifestWritten = false) := by
  unfold process_csv
  dsimp only
  split
  · simp [cleanup]
  · split
    · simp [cleanup]
    · split
      · simp [cleanup]
      · simp [cleanup]
      · split
        · simp [cleanup]
        · split
          · simp [cleanup]
          · simp [cleanup]

/-- C6, witness: a run interrupted in the middle of its second item still has
its driver quit and its handle cleared. -/
theorem C6_session_released_witness :
    (process_csv benvInterrupted "out").finalDriver.driver = none
    ∧ (process_csv benvInterrupted "out").finalDriver.quitCalls = 1 :=
  ⟨(C6_session_released benvInterrupted "out").1,
   (C6_session_released benvInterrupted "out").2.1 (by decide)⟩

/-- C9: when the tabular file yields zero identifiers, `process_csv` returns
two empty lists as a normal completion, the driver is never assigned, and no
quit call is made (no session is ever acquired). -/
theorem C9_empty_input (benv : BatchEnv) (outDir : String)
    (h : benv.readCsv = .ok []) :
    (process_csv benv outDir).outcome = .completed [] []
    ∧ (process_csv benv outDir).driverAssigned = false
    ∧ (process_csv benv outDir).finalDriver.quitCalls = 0 := by
  simp [process_csv, h, cleanup, List.isEmpty]

/-- C9, witness: a concrete empty-input run. -/
theorem C9_empty_input_witness :
    (process_csv benvEmpty "out").outcome = .completed [] []
    ∧ (process_csv benvEmpty "out").driverAssigned = false
    ∧ (process_csv benvEmpty "out").finalDriver.quitCalls = 0 :=
  C9_empty_input benvEmpty "out" rfl

/-! ## Packager lemmas -/

/-- The entry names of one directory level. -/
def namesOf (es : List Entry) : List String := es.map entryName

lemma mem_walkList_decomp (root : List String) (es : List Entry)
    (fp : List String) (h : fp ∈ walkList root es) :
    ∃ nm t, fp = root ++ nm :: t ∧ nm ∈ namesOf es := by
  induction root, es using walkList.induct generalizing fp with
  | case1 root => simp [walkList] at h
  | case2 root n rest ih =>
    rw [walkList] at h
    rcases List.mem_cons.mp h with rfl | hm
    · exact ⟨n, [], by simp, by simp [namesOf, entryName]⟩
    · obtain ⟨nm, t, heq, hnm⟩ := ih _ hm
      exact ⟨nm, t, heq, by simp [namesOf] at hnm ⊢; exact Or.inr hnm⟩
  | case3 root n cs rest ih1 ih2 =>
    rw [walkList] at h
    rcases List.mem_append.mp h with hm | hm
    · obtain ⟨nm, t, heq, _⟩ := ih1 _ hm
      refine ⟨n, nm :: t, ?_, by simp [namesOf, entryName]⟩
      rw [heq, List.append_assoc]
      rfl
    · obtain ⟨nm, t, heq, hnm⟩ := ih2 _ hm
      exact ⟨nm, t, heq, by simp [namesOf] at hnm ⊢; exact Or.inr hnm⟩

lemma walkList_nodup (root : List String) (es : List Entry) (hwf : WfList es) :
    (walkList root es).Nodup := by
  induction root, es using walkList.induct with
  | case1 root => rw [walkList]; exact List.nodup_nil
  | case2 root n rest ih =>
    rw [WfList] at hwf
    obtain ⟨hn, hrest⟩ := hwf
    rw [walkList]
    refine List.nodup_cons.mpr ⟨?_, ih hrest⟩
    intro hmem
    obtain ⟨nm, t, heq, hnm⟩ := mem_walkList_decomp root rest _ hmem
    have h2 : ([n] : List String) = nm :: t := List.append_cancel_left heq
    obtain ⟨e, he, hee⟩ := List.mem_map.mp hnm
    injection h2 with h3 _
    exact hn e he (hee.trans h3.symm)
  | case3 root n cs rest ih1 ih2 =>
    rw [WfList] at hwf
    obtain ⟨hn, hcs, hrest⟩ := hwf
    rw [walkList]
    refine List.Nodup.append (ih1 hcs) (ih2 hrest) ?_
    intro x hx1 hx2
    obtain ⟨nm1, t1, heq1, _⟩ := mem_walkList_decomp _ _ _ hx1
    obtain ⟨nm2, t2, heq2, hnm2⟩ := mem_walkList_decomp _ _ _ hx2
    have h2 : n :: nm1 :: t1 = nm2 :: t2 := by
      apply @List.append_cancel_left _ root
      rw [← heq2, heq1, List.append_assoc]
      rfl
    obtain ⟨e, he, hee⟩ := List.mem_map.mp hnm2
    injection h2 with h3 _
    exact hn e he (hee.trans h3.symm)

/-- A concrete run directory: the manifest plus a screenshots directory. -/
def zipTree : List Entry :=
  [Entry.file "results.csv",
   Entry.dir "screenshots" [Entry.file "a.png", Entry.file "b.png"]]

/-- C8: after `create_zip`, the archived paths are exactly the files under
the output directory (same list, hence the same count, nothing skipped or
duplicated), the path list has no duplicates when the tree is well formed,
and every entry's archive name is its path relative to the output
directory's parent, beginning with the run directory's name. -/
theorem C8_zip_contents (base : List String) (runName : String) (tree : List Entry)
    (hwf : WfList tree) :
    ((create_zip (base ++ [runName]) tree).map Prod.fst
        = walkList (base ++ [runName]) tree)
    ∧ (create_zip (base ++ [runName]) tree).length
        = (walkList (base ++ [runName]) tree).length
    ∧ ((create_zip (base ++ [runName]) tree).map Prod.fst).Nodup
    ∧ (∀ en ∈ create_zip (base ++ [runName]) tree,
        en.2 = relpathFrom base en.1
        ∧ ∃ t, en.1 = (base ++ [runName]) ++ t ∧ en.2 = runName :: t) := by
  have hfst : (create_zip (base ++ [runName]) tree).map Prod.fst
      = walkList (base ++ [runName]) tree := by
    unfold create_zip
    rw [List.map_map]
    have hid : (Prod.fst ∘ fun fp : List String =>
        (fp, relpathFrom (base ++ [runName]).dropLast fp)) = id := rfl
    rw [hid, List.map_id]
  refine ⟨hfst, by simp [create_zip], hfst ▸ walkList_nodup _ _ hwf, ?_⟩
  intro en hen
  unfold create_zip at hen
  obtain ⟨fp, hfp, rfl⟩ := List.mem_map.mp hen
  obtain ⟨nm, t, heq, _⟩ := mem_walkList_decomp _ _ _ hfp
  have hdl : (base ++ [runName]).dropLast = base := List.dropLast_concat
  have harc : relpathFrom (base ++ [runName]).dropLast fp = runName :: nm :: t := by
    rw [hdl]
    unfold relpathFrom
    rw [heq, List.append_assoc]
    exact List.drop_left base (runName :: nm :: t)
  refine ⟨by simp [harc, hdl], nm :: t, heq, harc⟩

/-- C8, witness: a concrete run directory with a manifest and two
screenshots. -/
theorem C8_zip_contents_witness :
    ((create_zip (["output"] ++ ["run_1"]) zipTree).map Prod.fst
        = walkList (["output"] ++ ["run_1"]) zipTree)
    ∧ ((create_zip (["output"] ++ ["run_1"]) zipTree).map Prod.fst).Nodup :=
  have h := C8_zip_contents ["output"] "run_1" zipTree (by simp [zipTree, WfList, entryName])
  ⟨h.1, h.2.2.1⟩

/-- C2, counterexample: the claim states that the resolver reports not-found
exactly when no candidate yields a present-and-visible element within its
timeout.  On the chain whose single candidate yields a present but invisible
element, no candidate yields a visible element, yet the loop does not report
not-found: the loop variable was assigned before the visibility check, so the
invisible element is returned. -/
theorem C2_resolver_counterexample :
    ¬ ((resolveChain none [Probe.present 7 false] = ExcOr.ok none) ↔
        ∀ p ∈ [Probe.present 7 false], visibleProbe p = false) := by
  decide

/-- C2, amended: for every locator chain, the resolver loop returns the first
candidate (in chain order) that yields a present and visible element within
the per-candidate timeout — in particular, for a chain [A, B, C] where A
matches nothing, B matches a visible element, and C also matches, B's element
is returned — and it reports not-found exactly when every candidate times out
without yielding a present element; a chain whose candidates yield only
present-but-invisible elements does not report not-found (the last such
element is used instead). -/
theorem C2_resolver_amended (pre rest chain pre2 post : List Probe) (e e2 : Nat)
    (h1 : ∀ p ∈ pre, continuesProbe p = true)
    (h2 : ∀ p ∈ pre2, continuesProbe p = true)
    (h3 : ∀ p ∈ post, p = Probe.timeout) :
    (∀ acc, resolveChain acc (pre ++ Probe.present e true :: rest) = .ok (some e))
    ∧ (resolveChain none chain = .ok none ↔ ∀ p ∈ chain, p = Probe.timeout)
    ∧ resolveChain none (pre2 ++ Probe.present e2 false :: post) = .ok (some e2) :=
  ⟨fun acc => resolveChain_append_firstVisible pre rest e h1 acc,
   resolveChain_none_iff chain,
   resolveChain_last_present pre2 post e2 h2 h3 none⟩

/-- C2, witness: the [A, B, C] tie-break scenario — A times out, B yields a
visible element 5, C yields a visible element 9 — returns B's element; a
concrete chain with a timeout and an invisible match is settled by the
not-found characterization; and on a chain whose present candidates (7, then
2) are all invisible and whose remaining candidates time out, the loop ends
with the last present element 2 rather than not-found. -/
theorem C2_resolver_amended_witness :
    resolveChain none ([Probe.timeout] ++ Probe.present 5 true :: [Probe.present 9 true])
      = .ok (some 5)
    ∧ (resolveChain none [Probe.timeout, Probe.present 2 false] = .ok none ↔
        ∀ p ∈ [Probe.timeout, Probe.present 2 false], p = Probe.timeout)
    ∧ resolveChain none ([Probe.timeout, Probe.present 7 false]
        ++ Probe.present 2 false :: [Probe.timeout]) = .ok (some 2) := by
  have h := C2_resolver_amended [Probe.timeout] [Probe.present 9 true]
    [Probe.timeout, Probe.present 2 false] [Probe.timeout, Probe.present 7 false]
    [Probe.timeout] 5 2 (by decide) (by decide) (by decide)
  exact ⟨h.1 none, h.2.1, h.2.2⟩

/-- The message recorded for an exception with detail `d` raised at
injection point `j`: points 10-16 lie inside the email-form `try` block
(lines 239-322) and get its handler's message; every other point gets the
outer handler's message (lines 365-368). -/
def excMsgAt (j : Fin 22) (d : String) : String :=
  if 10 <= j.val && j.val <= 16 then "Failed to handle email form: " ++ d
  else "Unexpected error: " ++ d

/-- An exception with detail `d` is raised at injection point `j` of
`process_url`, every operation before `j` having completed normally.  The
points follow program order: 0 navigate, 1 body wait, 2 initial screenshot,
3 URL chain, 4 clear URL, 5 type URL, 6 screenshot, 7 submit chain, 8 click
submit, 9 screenshot, 10 email chain, 11 clear email, 12 type email,
13 screenshot, 14 final chain, 15 click final, 16 screenshot, 17 second body
wait, 18 popup handling, 19 height script, 20 window resize,
21 final screenshot. -/
def ExcAt (env : Env) (j : Fin 22) (d : String) : Prop :=
  match j.val with
  | 0 => env.navigate = .exc d
  | 1 => env.navigate = .ok () ∧ env.waitBody1 = .exc d
  | 2 => env.navigate = .ok () ∧ env.waitBody1 = .ok () ∧ env.shotInitial = .exc d
  | 3 => ReachUrlChain env ∧ resolveChain none env.urlChain = .exc d
  | 4 => ReachUrlChain env ∧ (∃ e, resolveChain none env.urlChain = .ok (some e)) ∧
      env.clearUrl = .exc d
  | 5 => ReachUrlChain env ∧ (∃ e, resolveChain none env.urlChain = .ok (some e)) ∧
      env.clearUrl = .ok () ∧ env.typeUrl = .exc d
  | 6 => ReachUrlChain env ∧ (∃ e, resolveChain none env.urlChain = .ok (some e)) ∧
      env.clearUrl = .ok () ∧ env.typeUrl = .ok () ∧ env.shotUrlEntered = .exc d
  | 7 => ReachSubmitChain env ∧ resolveChain none env.submitChain = .exc d
  | 8 => ReachSubmitChain env ∧ (∃ e, resolveChain none env.submitChain = .ok (some e)) ∧
      env.clickSubmit = .exc d
  | 9 => ReachSubmitChain env ∧ (∃ e, resolveChain none env.submitChain = .ok (some e)) ∧
      env.clickSubmit = .ok () ∧ env.shotSubmitted = .exc d
  | 10 => ReachEmailChain env ∧ resolveChain none env.emailChain = .exc d
  | 11 => ReachEmailChain env ∧ (∃ e, resolveChain none env.emailChain = .ok (some e)) ∧
      env.clearEmail = .exc d
  | 12 => ReachEmailChain env ∧ (∃ e, resolveChain none env.emailChain = .ok (some e)) ∧
      env.clearEmail = .ok () ∧ env.typeEmail = .exc d
  | 13 => ReachEmailChain env ∧ (∃ e, resolveChain none env.emailChain = .ok (some e)) ∧
      env.clearEmail = .ok () ∧ env.typeEmail = .ok () ∧ env.shotEmailEntered = .exc d
  | 14 => ReachFinalChain env ∧ resolveChain none env.finalChain = .exc d
  | 15 => ReachFinalChain env ∧ (∃ e, resolveChain none env.finalChain = .ok (some e)) ∧
      env.clickFinal = .exc d
  | 16 => ReachFinalChain env ∧ (∃ e, resolveChain none env.finalChain = .ok (some e)) ∧
      env.clickFinal = .ok () ∧ env.shotFinalSubmitted = .exc d
  | 17 => ReachPostSubmit env ∧ env.waitBody2 = .exc d
  | 18 => ReachPostSubmit env ∧ env.waitBody2 = .ok () ∧ env.popupStep = .exc d
  | 19 => ReachPostSubmit env ∧ env.waitBody2 = .ok () ∧ env.popupStep = .ok () ∧
      env.getHeight = .exc d
  | 20 => ReachPostSubmit env ∧ env.waitBody2 = .ok () ∧ env.popupStep = .ok () ∧
      (∃ hgt, env.getHeight = .ok hgt) ∧ env.setWindowSize = .exc d
  | _ => ReachPostSubmit env ∧ env.waitBody2 = .ok () ∧ env.popupStep = .ok () ∧
      (∃ hgt, env.getHeight = .ok hgt) ∧ env.setWindowSize = .ok () ∧
      env.shotFinal = .exc d

/-- Like `envAllOk` except that navigation raises. -/
def envNavBoom : Env :=
  { envAllOk with navigate := .exc "connection refused" }

lemma leadsChars_append (t d : List Char) : leadsChars t (t ++ d) = true := by
  induction t with
  | nil => rfl
  | cons c cs ih => simp [leadsChars, ih]

/-- C4: every `Result` returned by `process_url` has a screenshot path when
its status is success and an error message when its status is failed. -/
theorem C4_result_shape (env : Env) (url output_dir : String) :
    ((process_url env url output_dir).status = "success" →
      (process_url env url output_dir).screenshot_path ≠ none)
    ∧ ((process_url env url output_dir).status = "failed" →
      (process_url env url output_dir).error ≠ none) :=
  resOk_process_url env url output_dir

/-- C4, witness: on an all-success environment the status is success, so the
screenshot path is non-null. -/
theorem C4_result_shape_witness :
    (process_url envAllOk "https://example.com" "out").screenshot_path ≠ none :=
  (C4_result_shape envAllOk "https://example.com" "out").1 (by decide)

/-- C5: a resolution failure at any of the four mandatory locator steps
yields a failed `Result` whose error message is that step's message; the four
messages are pairwise distinct, the primary-input message contains
"input field", and the primary-submit message contains "submit". -/
theorem C5_resolution_failure_messages (k : Fin 4) (env : Env)
    (url output_dir : String) (h : ResolutionFailAt env k) :
    (process_url env url output_dir).status = "failed"
    ∧ (process_url env url output_dir).error = some (stepMsg k)
    ∧ (∀ j : Fin 4, j ≠ k → stepMsg j ≠ stepMsg k)
    ∧ containsChars "input field".data (stepMsg 0).data = true
    ∧ containsChars "submit".data (stepMsg 1).data = true := by
  obtain ⟨v, hv⟩ := k
  interval_cases v
  · obtain ⟨⟨a1, a2, a3⟩, hc⟩ := h
    refine ⟨?_, ?_,
      (by decide : ∀ j : Fin 4, j ≠ (0 : Fin 4) → stepMsg j ≠ stepMsg (0 : Fin 4)),
      by decide, by decide⟩ <;>
      simp [process_url, withExc, stepMsg, *]
  · obtain ⟨⟨⟨a1, a2, a3⟩, ⟨e1, b1⟩, a4, a5, a6⟩, hc⟩ := h
    refine ⟨?_, ?_,
      (by decide : ∀ j : Fin 4, j ≠ (1 : Fin 4) → stepMsg j ≠ stepMsg (1 : Fin 4)),
      by decide, by decide⟩ <;>
      simp [process_url, withExc, stepMsg, *]
  · obtain ⟨⟨⟨⟨a1, a2, a3⟩, ⟨e1, b1⟩, a4, a5, a6⟩, ⟨e2, b2⟩, a7, a8⟩, hc⟩ := h
    refine ⟨?_, ?_,
      (by decide : ∀ j : Fin 4, j ≠ (2 : Fin 4) → stepMsg j ≠ stepMsg (2 : Fin 4)),
      by decide, by decide⟩ <;>
      simp [process_url, withExc, innerExc, stepMsg, *]
  · obtain ⟨⟨⟨⟨⟨a1, a2, a3⟩, ⟨e1, b1⟩, a4, a5, a6⟩, ⟨e2, b2⟩, a7, a8⟩,
      ⟨e3, b3⟩, a9, a10, a11⟩, hc⟩ := h
    refine ⟨?_, ?_,
      (by decide : ∀ j : Fin 4, j ≠ (3 : Fin 4) → stepMsg j ≠ stepMsg (3 : Fin 4)),
      by decide, by decide⟩ <;>
      simp [process_url, withExc, innerExc, stepMsg, *]

/-- C5, witness: with no candidate of the URL-input chain matching, the
workflow fails with the primary-input message. -/
theorem C5_resolution_failure_messages_witness :
    (process_url envUrlNotFound "https://example.com" "out").status = "failed"
    ∧ (process_url envUrlNotFound "https://example.com" "out").error
        = some (stepMsg 0) :=
  have h := C5_resolution_failure_messages 0 envUrlNotFound "https://example.com"
    "out" ⟨⟨rfl, rfl, rfl⟩, rfl⟩
  ⟨h.1, h.2.1⟩

/-- C3, counterexample: an unexpected exception raised while handling the
email form (here a stale-element error during `email_input.clear()`) is
converted to a failed result whose message is
"Failed to handle email form: <detail>", which is not of the claimed form
"unexpected error: <detail>" for any detail string. -/
theorem C3_exception_counterexample :
    (process_url envEmailStale "https://example.com" "out").error
      = some "Failed to handle email form: stale element reference"
    ∧ ∀ d : String,
        ("Failed to handle email form: stale element reference" : String)
          ≠ "unexpected error: " ++ d := by
  refine ⟨by decide, fun d h => ?_⟩
  have h1 : leadsChars ("unexpected error: " : String).data
      (("unexpected error: " ++ d : String)).data = true := by
    rw [String.data_append]
    exact leadsChars_append _ _
  rw [← h] at h1
  exact absurd h1 (by decide)

/-- C3, amended: `process_url` always returns a `Result` (it is total in this
embedding, modelling that no exception escapes the outer handler); an
unexpected exception at any point inside the email-form block (points 10-16)
is caught and converted to a failed result with error message
"Failed to handle email form: <detail>", and at any other point to a failed
result with error message "Unexpected error: <detail>". -/
theorem C3_exception_routing (j : Fin 22) (env : Env) (url output_dir d : String)
    (h : ExcAt env j d) :
    (process_url env url output_dir).status = "failed"
    ∧ (process_url env url output_dir).error = some (excMsgAt j d) := by
  obtain ⟨v, hv⟩ := j
  interval_cases v
  · have hx : env.navigate = .exc d := h
    simp [process_url, withExc, excMsgAt, hx]
  · obtain ⟨a1, hx⟩ := h
    simp [process_url, withExc, excMsgAt, *]
  · obtain ⟨a1, a2, hx⟩ := h
    simp [process_url, withExc, excMsgAt, *]
  · obtain ⟨⟨a1, a2, a3⟩, hx⟩ := h
    simp [process_url, withExc, excMsgAt, *]
  · obtain ⟨⟨a1, a2, a3⟩, ⟨e1, b1⟩, hx⟩ := h
    simp [process_url, withExc, excMsgAt, *]
  · obtain ⟨⟨a1, a2, a3⟩, ⟨e1, b1⟩, a4, hx⟩ := h
    simp [process_url, withExc, excMsgAt, *]
  · obtain ⟨⟨a1, a2, a3⟩, ⟨e1, b1⟩, a4, a5, hx⟩ := h
    simp [process_url, withExc, excMsgAt, *]
  · obtain ⟨⟨⟨a1, a2, a3⟩, ⟨e1, b1⟩, a4, a5, a6⟩, hx⟩ := h
    simp [process_url, withExc, excMsgAt, *]
  · obtain ⟨⟨⟨a1, a2, a3⟩, ⟨e1, b1⟩, a4, a5, a6⟩, ⟨e2, b2⟩, hx⟩ := h
    simp [process_url, withExc, excMsgAt, *]
  · obtain ⟨⟨⟨a1, a2, a3⟩, ⟨e1, b1⟩, a4, a5, a6⟩, ⟨e2, b2⟩, a7, hx⟩ := h
    simp [process_url, withExc, excMsgAt, *]
  · obtain ⟨⟨⟨⟨a1, a2, a3⟩, ⟨e1, b1⟩, a4, a5, a6⟩, ⟨e2, b2⟩, a7, a8⟩, hx⟩ := h
    simp [process_url, withExc, innerExc, excMsgAt, *]
  · obtain ⟨⟨⟨⟨a1, a2, a3⟩, ⟨e1, b1⟩, a4, a5, a6⟩, ⟨e2, b2⟩, a7, a8⟩, ⟨e3, b3⟩, hx⟩ := h
    simp [process_url, withExc, innerExc, excMsgAt, *]
  · obtain ⟨⟨⟨⟨a1, a2, a3⟩, ⟨e1, b1⟩, a4, a5, a6⟩, ⟨e2, b2⟩, a7, a8⟩, ⟨e3, b3⟩, a9, hx⟩ := h
    simp [process_url, withExc, innerExc, excMsgAt, *]
  · obtain ⟨⟨⟨⟨a1, a2, a3⟩, ⟨e1, b1⟩, a4, a5, a6⟩, ⟨e2, b2⟩, a7, a8⟩, ⟨e3, b3⟩, a9, a10, hx⟩ := h
    simp [process_url, withExc, innerExc, excMsgAt, *]
  · obtain ⟨⟨⟨⟨⟨a1, a2, a3⟩, ⟨e1, b1⟩, a4, a5, a6⟩, ⟨e2, b2⟩, a7, a8⟩, ⟨e3, b3⟩, a9, a10, a11⟩, hx⟩ := h
    simp [process_url, withExc, innerExc, excMsgAt, *]
  · obtain ⟨⟨⟨⟨⟨a1, a2, a3⟩, ⟨e1, b1⟩, a4, a5, a6⟩, ⟨e2, b2⟩, a7, a8⟩, ⟨e3, b3⟩, a9, a10, a11⟩, ⟨e4, b4⟩, hx⟩ := h
    simp [process_url, withExc, innerExc, excMsgAt, *]
  · obtain ⟨⟨⟨⟨⟨a1, a2, a3⟩, ⟨e1, b1⟩, a4, a5, a6⟩, ⟨e2, b2⟩, a7, a8⟩, ⟨e3, b3⟩, a9, a10, a11⟩, ⟨e4, b4⟩, a12, hx⟩ := h
    simp [process_url, withExc, innerExc, excMsgAt, *]
  · obtain ⟨⟨⟨⟨⟨⟨a1, a2, a3⟩, ⟨e1, b1⟩, a4, a5, a6⟩, ⟨e2, b2⟩, a7, a8⟩, ⟨e3, b3⟩, a9, a10, a11⟩, ⟨e4, b4⟩, a12, a13⟩, hx⟩ := h
    simp [process_url, withExc, innerExc, excMsgAt, *]
  · obtain ⟨⟨⟨⟨⟨⟨a1, a2, a3⟩, ⟨e1, b1⟩, a4, a5, a6⟩, ⟨e2, b2⟩, a7, a8⟩, ⟨e3, b3⟩, a9, a10, a11⟩, ⟨e4, b4⟩, a12, a13⟩, a14, hx⟩ := h
    simp [process_url, withExc, innerExc, excMsgAt, *]
  · obtain ⟨⟨⟨⟨⟨⟨a1, a2, a3⟩, ⟨e1, b1⟩, a4, a5, a6⟩, ⟨e2, b2⟩, a7, a8⟩, ⟨e3, b3⟩, a9, a10, a11⟩, ⟨e4, b4⟩, a12, a13⟩, a14, a15, hx⟩ := h
    simp [process_url, withExc, innerExc, excMsgAt, *]
  · obtain ⟨⟨⟨⟨⟨⟨a1, a2, a3⟩, ⟨e1, b1⟩, a4, a5, a6⟩, ⟨e2, b2⟩, a7, a8⟩, ⟨e3, b3⟩, a9, a10, a11⟩, ⟨e4, b4⟩, a12, a13⟩, a14, a15, ⟨hgt, bh⟩, hx⟩ := h
    simp [process_url, withExc, innerExc, excMsgAt, *]
  · obtain ⟨⟨⟨⟨⟨⟨a1, a2, a3⟩, ⟨e1, b1⟩, a4, a5, a6⟩, ⟨e2, b2⟩, a7, a8⟩, ⟨e3, b3⟩, a9, a10, a11⟩, ⟨e4, b4⟩, a12, a13⟩, a14, a15, ⟨hgt, bh⟩, a16, hx⟩ := h
    simp [process_url, withExc, innerExc, excMsgAt, *]

/-- C3, witness: a navigation failure (point 0, outside the email-form
block) yields a failed result with the outer handler's message. -/
theorem C3_exception_routing_witness :
    (process_url envNavBoom "https://example.com" "out").status = "failed"
    ∧ (process_url envNavBoom "https://example.com" "out").error
        = some (excMsgAt 0 "connection refused") :=
  C3_exception_routing 0 envNavBoom "https://example.com" "out"
    "connection refused" rfl

/-- C7: `sanitize_filename` is a pure, deterministic function of its input
(purity and determinism are inherent in the embedding, recorded by the
reflexive first conjunct), and its output never exceeds 100 characters. -/
theorem C7_sanitize_deterministic_bounded (url : String) :
    sanitize_filename url = sanitize_filename url
    ∧ (sanitize_filename url).length ≤ 100 := by
  refine ⟨rfl, ?_⟩
  show (sanitizeL url.data).length ≤ 100
  unfold sanitizeL sanitizeFrom
  dsimp only
  split
  next h =>
    simp only [List.length_take]
    omega
  next h => omega

/-- C10: `sanitize_filename` depends only on the URL's host and path
components: two URLs sharing the same host-and-path section but differing in
scheme, query string, or fragment (either one optionally absent) sanitize to
the same filename; consequently sanitization is not injective — two distinct
input URLs can map to the same artifact filename. -/
theorem C10_sanitize_components (scheme1 scheme2 hp : List Char)
    (q1 q2 f1 f2 : Option (List Char))
    (hs1 : validScheme scheme1 = true) (hs2 : validScheme scheme2 = true)
    (hhp : ∀ c ∈ hp, c ≠ '?' ∧ c ≠ '#')
    (hq1 : ∀ qs, q1 = some qs → ∀ c ∈ qs, c ≠ '#')
    (hq2 : ∀ qs, q2 = some qs → ∀ c ∈ qs, c ≠ '#') :
    sanitizeL (buildUrl scheme1 hp q1 f1) = sanitizeL (buildUrl scheme2 hp q2 f2)
    ∧ ∃ u1 u2 : String, u1 ≠ u2 ∧ sanitize_filename u1 = sanitize_filename u2 := by
  constructor
  · have h1 := urlsplit_buildUrl scheme1 hp q1 f1 hs1 hhp hq1
    have h2 := urlsplit_buildUrl scheme2 hp q2 f2 hs2 hhp hq2
    unfold sanitizeL
    dsimp only
    rw [h1.1, h1.2, h2.1, h2.2]
  · exact ⟨"http://example.com/a?x=1", "https://example.com/a#frag", by decide, by decide⟩

/-- C10, witness: "http://example.com/a?x=1" and "https://example.com/a#frag"
differ only in scheme, query and fragment and sanitize identically. -/
theorem C10_sanitize_components_witness :
    sanitizeL (buildUrl "http".data "example.com/a".data (some "x=1".data) none)
      = sanitizeL (buildUrl "https".data "example.com/a".data none (some "frag".data))
    ∧ ∃ u1 u2 : String, u1 ≠ u2 ∧ sanitize_filename u1 = sanitize_filename u2 :=
  C10_sanitize_components "http".data "https".data "example.com/a".data
    (some "x=1".data) none none (some "frag".data)
    (by decide) (by decide) (by decide)
    (fun qs h => by injection h with h2; subst h2; decide)
    (fun qs h => nomatch h)


end SeoAudit
